import Mathlib

/-!
Verification development for `Code/ETA_Utilities.py` of the Coeus repository.

The single source file defines the class `ETA_Parameters`: a parameter data
model with a defaulted constructor (`__init__`), an objective-spectrum file
parser (`read_obj`), a keyword-driven constraints file parser
(`read_constraints`), and a derived normalized `min_fiss` computation run at
construction and at the end of every constraints parse.

Embedding conventions:
* Python `float` values are modelled as `ℚ`.  The constant `math.pi` is
  modelled as an explicit parameter `piv : ℚ` (its numeric value is irrelevant
  to every statement below).  Python raises `ZeroDivisionError` on float
  division by zero; `ℚ` division is total with `x / 0 = 0`, and no statement
  below depends on a zero denominator.
* Python `str` values are Lean `String`s, with `strip`/`lower`/`split(',')`
  re-implemented structurally over the character list so that they evaluate
  by kernel reduction.
* File contents are modelled as `Option (List String)`: `none` models an
  `IOError` on `open`, `some lines` the sequence of lines (line terminators
  dropped; every consumer strips tokens, so this loses nothing).
* Fallible steps return `Except PyErr`, with one constructor per Python
  exception shape that the source can hit.
-/

namespace ETAUtil

/-- Characters treated as whitespace by Python's `str.strip()`:
space, tab, newline, carriage return, vertical tab, form feed. -/
def pySpace (c : Char) : Bool :=
  c = ' ' ∨ c = '\t' ∨ c = '\n' ∨ c = '\r' ∨ c = Char.ofNat 11 ∨ c = Char.ofNat 12

/-- Python `str.strip()`: drop leading and trailing whitespace. -/
def pyStrip (s : String) : String :=
  String.mk (((s.data.dropWhile pySpace).reverse.dropWhile pySpace).reverse)

/-- Python `str.lower()` on one character (ASCII letters; the source's
keywords and inputs are ASCII). -/
def pyLowerChar (c : Char) : Char :=
  if 'A' ≤ c ∧ c ≤ 'Z' then Char.ofNat (c.toNat + 32) else c

/-- Python `str.lower()`. -/
def pyLower (s : String) : String :=
  String.mk (s.data.map pyLowerChar)

/-- Helper for `pySplit`: split a character list at every comma, never
collapsing adjacent separators. -/
def splitCommaAux : List Char → List Char → List (List Char)
  | [], acc => [acc.reverse]
  | c :: rest, acc =>
    if c = ',' then acc.reverse :: splitCommaAux rest [] else splitCommaAux rest (c :: acc)

/-- Python `line.split(',')`: always returns at least one piece
(`"".split(',') == ['']`). -/
def pySplit (s : String) : List String :=
  (splitCommaAux s.data []).map String.mk

/-- Decimal digit run to a natural number. -/
def natOfDigits (l : List Char) : ℕ :=
  l.foldl (fun a c => 10 * a + (c.toNat - '0'.toNat)) 0

/-- Exponent suffix of Python `float(s)`: sign and digit run after `e`/`E`.
Returns `none` on a malformed exponent (a `ValueError`). -/
def pyFloatExp (r : List Char) : Option ℤ :=
  let pe : ℤ × List Char :=
    match r with
    | '+' :: r2 => (1, r2)
    | '-' :: r2 => (-1, r2)
    | r2 => (1, r2)
  let eDigits := pe.2.takeWhile Char.isDigit
  let rest := pe.2.dropWhile Char.isDigit
  if eDigits.isEmpty ∨ ¬ rest.isEmpty then none
  else some (pe.1 * (natOfDigits eDigits : ℤ))

/-- Python `float(s)` on an already-stripped token, covering the decimal and
scientific literal forms the source's data files use; `none` models the
`ValueError` Python raises on any non-numeric token. -/
def pyFloat (s : String) : Option ℚ :=
  let p : ℚ × List Char :=
    match s.data with
    | '+' :: r => (1, r)
    | '-' :: r => (-1, r)
    | r => (1, r)
  let intPart := p.2.takeWhile Char.isDigit
  let cs1 := p.2.dropWhile Char.isDigit
  let q : List Char × List Char :=
    match cs1 with
    | '.' :: r => (r.takeWhile Char.isDigit, r.dropWhile Char.isDigit)
    | r => ([], r)
  if intPart.isEmpty ∧ q.1.isEmpty then none
  else
    let mantissa : ℚ :=
      p.1 * ((natOfDigits intPart : ℚ) + (natOfDigits q.1 : ℚ) / 10 ^ q.1.length)
    match q.2 with
    | [] => some mantissa
    | 'e' :: r => (pyFloatExp r).map (fun e => mantissa * (10 : ℚ) ^ e)
    | 'E' :: r => (pyFloatExp r).map (fun e => mantissa * (10 : ℚ) ^ e)
    | _ => none

/-- Python `int(s)` on an already-stripped token: optional sign then a
nonempty digit run; `none` models the `ValueError`. -/
def pyInt (s : String) : Option ℤ :=
  let p : ℤ × List Char :=
    match s.data with
    | '+' :: r => (1, r)
    | '-' :: r => (-1, r)
    | r => (1, r)
  let ds := p.2.takeWhile Char.isDigit
  let rest := p.2.dropWhile Char.isDigit
  if ds.isEmpty ∨ ¬ rest.isEmpty then none
  else some (p.1 * (natOfDigits ds : ℤ))

/-- Python list indexing `xs[i]` for a possibly negative `i` (`-1` is the last
element); `none` models the `IndexError`. -/
def pyIndex {α : Type} (xs : List α) (i : ℤ) : Option α :=
  if 0 ≤ i then xs.get? i.toNat
  else if 0 ≤ (xs.length : ℤ) + i then xs.get? ((xs.length : ℤ) + i).toNat
  else none

/-- One constructor per Python exception shape reachable in the source. -/
inductive PyErr : Type where
  /-- The `AssertionError` from the NAS foil list-length assertion (line 169). -/
  | assertNasLen : PyErr
  /-- The `AssertionError` from the TOAD foil list-length assertion (line 170). -/
  | assertToadLen : PyErr
  /-- open failure path: the `IOError` is caught and logged with its OS error
  code and the path, then `assert self.f.closed` inspects the never-acquired
  handle, which itself raises (`AttributeError`), terminating the call with a
  secondary error that masks the original cause (lines 302–307, 492–497). -/
  | openFailSecondary : PyErr
  /-- The `IndexError` from list indexing. -/
  | indexError : PyErr
  /-- The `ValueError` from `float(...)` or `int(...)` on a non-numeric token. -/
  | valueError : PyErr
  /-- The `NameError` raised because `ind` is never bound when `fissile_mat`
  does not occur in `toad_mat_f` (lines 500–503). -/
  | nameError : PyErr
deriving DecidableEq

/-- The `ETA_Parameters` object: one field per attribute the constructor
stores, with the source's attribute names. -/
@[ext]
structure ETA_State : Type where
  spectrum_type : String
  spectrum : List (ℚ × ℚ)
  min_fiss : ℚ
  max_weight : ℚ
  src : ℚ
  tcc_dist : ℚ
  t_ds : ℚ
  t_w : ℚ
  snout_dist : ℚ
  t_c : ℚ
  t_m : ℚ
  r_f : ℚ
  r_o : ℚ
  theta : ℚ
  ds_mat : String
  struct_mat : String
  fill_mat : String
  fissile_mat : String
  t_nas : ℚ
  r_nas : ℚ
  nas_mat : String
  t_nas_f : List ℚ
  r_nas_f : ℚ
  nas_mat_f : List String
  toad_loc : String
  toad_mat : String
  t_toad : List ℚ
  r_toad : ℚ
  toad_mat_f : List String
  holder_mat : String
  h_fill_mat : String
  t_h : ℚ
  max_vert : ℤ
  max_horiz : ℤ

/-- The keyword arguments of `ETA_Parameters.__init__`, with the source's
parameter names. -/
structure InitArgs : Type where
  spectrum_type : String
  spectrum : List (ℚ × ℚ)
  min_fiss : ℚ
  max_weight : ℚ
  src : ℚ
  tcc_dist : ℚ
  debris_shield_thickness : ℚ
  wall_thickness : ℚ
  snout_dist : ℚ
  cover_thickness : ℚ
  mount_thickness : ℚ
  face_radius : ℚ
  eta_or : ℚ
  cone_angle : ℚ
  debris_shield_mat : String
  struct_mat : String
  fill_mat : String
  fissile_mat : String
  nas_th : ℚ
  nas_r : ℚ
  nas_mat : String
  nas_foil_th : List ℚ
  nas_foil_r : ℚ
  nas_foil_mat : List String
  toad_loc : String
  toad_mat : String
  toad_foil_th : List ℚ
  toad_foil_r : ℚ
  toad_foil_mat : List String
  holder_mat : String
  holder_fill_mat : String
  holder_thickness : ℚ
  max_vert : ℤ
  max_horiz : ℤ

/-- The documented default value of every constructor argument (source lines
159–168). -/
def defaultArgs : InitArgs where
  spectrum_type := "normalized differential"
  spectrum := []
  min_fiss := 5e8
  max_weight := 125.0
  src := 5e15
  tcc_dist := 15.24
  debris_shield_thickness := 0.3
  wall_thickness := 0.5
  snout_dist := 52.14
  cover_thickness := 1.0
  mount_thickness := 2.4
  face_radius := 5.48
  eta_or := 9.39
  cone_angle := 70.22
  debris_shield_mat := "Al"
  struct_mat := "Al"
  fill_mat := "Air (dry near sea level)"
  fissile_mat := "Pb"
  nas_th := 0.014
  nas_r := 2.69
  nas_mat := "Al"
  nas_foil_th := [0.1, 0.1, 0.1, 0.1, 0.01]
  nas_foil_r := 2.5
  nas_foil_mat := ["Zr", "Zn", "In", "Al", "Ta"]
  toad_loc := "In"
  toad_mat := "Al"
  toad_foil_th := [0.0254, 0.0127]
  toad_foil_r := 1.252
  toad_foil_mat := ["Au", "Pb"]
  holder_mat := "Al"
  holder_fill_mat := "Fe"
  holder_thickness := 2.0
  max_vert := 3
  max_horiz := 7

/-- Python `==` between an element of `enumerate(toad_mat_f)` — an
`(index, material)` pair — and the `str` value `fissile_mat`.  Values of
these distinct types always compare unequal in Python, so this is constantly
`false` (the comparison in source line 215 forgot to project the pair). -/
def enumPairEqStr (_p : ℕ × String) (_m : String) : Bool := false

/-- Source line 215:
`ind = next((i for i in enumerate(self.toad_mat_f) if i == self.fissile_mat), -1)`.
The generator filters `enumerate` pairs with `i == fissile_mat`; on
exhaustion `next` yields the default `-1`. -/
def ctorFissInd (mats : List String) (fiss : String) : ℤ :=
  match (mats.enum.find? (fun p => enumPairEqStr p fiss)) with
  | some p => (p.1 : ℤ)
  | none => -1

/-- Constructor `ETA_Parameters.__init__` (source lines 159–216): the two list-length
assertions run before any attribute is stored; on success every argument is
stored and `min_fiss` is immediately overwritten with
`min_fiss / (src * r_toad**2 * pi * t_toad[ind])` where `ind` comes from
`ctorFissInd`. -/
def init (piv : ℚ) (a : InitArgs) : Except PyErr ETA_State :=
  if a.nas_foil_th.length ≠ a.nas_foil_mat.length then .error .assertNasLen
  else if a.toad_foil_th.length ≠ a.toad_foil_mat.length then .error .assertToadLen
  else
    match pyIndex a.toad_foil_th (ctorFissInd a.toad_foil_mat a.fissile_mat) with
    | none => .error .indexError
    | some t =>
      .ok
        { spectrum_type := a.spectrum_type
          spectrum := a.spectrum
          min_fiss := a.min_fiss / (a.src * a.toad_foil_r ^ 2 * piv * t)
          max_weight := a.max_weight
          src := a.src
          tcc_dist := a.tcc_dist
          t_ds := a.debris_shield_thickness
          t_w := a.wall_thickness
          snout_dist := a.snout_dist
          t_c := a.cover_thickness
          t_m := a.mount_thickness
          r_f := a.face_radius
          r_o := a.eta_or
          theta := a.cone_angle
          ds_mat := a.debris_shield_mat
          struct_mat := a.struct_mat
          fill_mat := a.fill_mat
          fissile_mat := a.fissile_mat
          t_nas := a.nas_th
          r_nas := a.nas_r
          nas_mat := a.nas_mat
          t_nas_f := a.nas_foil_th
          r_nas_f := a.nas_foil_r
          nas_mat_f := a.nas_foil_mat
          toad_loc := a.toad_loc
          toad_mat := a.toad_mat
          t_toad := a.toad_foil_th
          r_toad := a.toad_foil_r
          toad_mat_f := a.toad_foil_mat
          holder_mat := a.holder_mat
          h_fill_mat := a.holder_fill_mat
          t_h := a.holder_thickness
          max_vert := a.max_vert
          max_horiz := a.max_horiz }

/-- One data row of `read_obj` (source lines 296–298): split on commas,
strip, and convert both leading columns with `float`. -/
def objRow (line : String) : Except PyErr (ℚ × ℚ) :=
  let toks := pySplit line
  match toks.get? 0 with
  | none => .error .indexError
  | some t0 =>
    match pyFloat (pyStrip t0) with
    | none => .error .valueError
    | some e =>
      match toks.get? 1 with
      | none => .error .indexError
      | some t1 =>
        match pyFloat (pyStrip t1) with
        | none => .error .valueError
        | some fl => .ok (e, fl)

/-- Method `ETA_Parameters.read_obj` (source lines 280–310): on an open failure the
logged-then-asserted path terminates with a secondary error; otherwise the
stripped first line becomes `spectrum_type` and the remaining rows, in file
order, become `spectrum`. -/
def read_obj (s : ETA_State) (file : Option (List String)) : Except PyErr ETA_State :=
  match file with
  | none => .error .openFailSecondary
  | some lines => do
    let rows ← lines.tail.mapM objRow
    .ok { s with spectrum_type := pyStrip (lines.headD ""), spectrum := rows }

/-- The recognized constraint-file keywords, one constructor each, in the
order the source's `Switch` chain tests them (lines 364–474). -/
inductive Kw : Type where
  | minFiss | maxWeight | srcStrength
  | tccDist | debrisShieldTh | wallTh | snoutDist | coverTh | mountTh
  | faceRadius | coneOuterRadius | coneAngle
  | debrisShieldMat | structMat | fillMat | fissileFoil
  | nasTh | nasR | nasMat
  | nasFoils | nasFoilTh | nasFoilR | toadFollows
  | toadMat | toadFoils | toadFoilTh | toadFoilR
  | holderMat | holderFillMat | holderWallTh
  | maxVert | maxHoriz
deriving DecidableEq, Fintype

/-- The case-folded keyword string each `case(...)` tests (the source lowers
its mixed-case literals with `.lower()`). -/
def kwStr : Kw → String
  | .minFiss => "minimum fissions"
  | .maxWeight => "eta max weight"
  | .srcStrength => "source strength"
  | .tccDist => "tcc to eta distance"
  | .debrisShieldTh => "debris shield thickness"
  | .wallTh => "eta wall thickness"
  | .snoutDist => "snout distance"
  | .coverTh => "eta back cover thickness"
  | .mountTh => "eta to snout mount thickness"
  | .faceRadius => "eta face radius"
  | .coneOuterRadius => "eta cone outer radius"
  | .coneAngle => "eta cone opening angle"
  | .debrisShieldMat => "debris shield material"
  | .structMat => "eta structural material"
  | .fillMat => "eta void fill material"
  | .fissileFoil => "fissile foil"
  | .nasTh => "nas thickness"
  | .nasR => "nas radius"
  | .nasMat => "nas material"
  | .nasFoils => "nas activation foils"
  | .nasFoilTh => "nas activation foil thickness"
  | .nasFoilR => "nas activation foil radius"
  | .toadFollows => "toad follows material"
  | .toadMat => "toad material"
  | .toadFoils => "toad activation foils"
  | .toadFoilTh => "toad activation foil thickness"
  | .toadFoilR => "toad activation foil radius"
  | .holderMat => "holder material"
  | .holderFillMat => "holder fill material"
  | .holderWallTh => "holder wall thickness"
  | .maxVert => "max vertical components"
  | .maxHoriz => "max horizontal components"

/-- The keywords in the order the `Switch` chain tests them. -/
def kwList : List Kw :=
  [.minFiss, .maxWeight, .srcStrength,
   .tccDist, .debrisShieldTh, .wallTh, .snoutDist, .coverTh, .mountTh,
   .faceRadius, .coneOuterRadius, .coneAngle,
   .debrisShieldMat, .structMat, .fillMat, .fissileFoil,
   .nasTh, .nasR, .nasMat,
   .nasFoils, .nasFoilTh, .nasFoilR, .toadFollows,
   .toadMat, .toadFoils, .toadFoilTh, .toadFoilR,
   .holderMat, .holderFillMat, .holderWallTh,
   .maxVert, .maxHoriz]

/-- The value a keyword's branch writes: a float, a string, a float list, a
string list, or an int. -/
inductive FieldVal : Type where
  | fq : ℚ → FieldVal
  | fs : String → FieldVal
  | fql : List ℚ → FieldVal
  | fsl : List String → FieldVal
  | fi : ℤ → FieldVal
deriving DecidableEq

/-- The conversion `float(split_list[1].strip())`: an `IndexError` when the
line has no second token, a `ValueError` when it is not numeric. -/
def floatTok (toks : List String) : Except PyErr ℚ :=
  match toks.get? 1 with
  | none => .error .indexError
  | some t =>
    match pyFloat (pyStrip t) with
    | none => .error .valueError
    | some v => .ok v

/-- The token `split_list[1].strip()`. -/
def strTok (toks : List String) : Except PyErr String :=
  match toks.get? 1 with
  | none => .error .indexError
  | some t => .ok (pyStrip t)

/-- The conversion `int(split_list[1].strip())`. -/
def intTok (toks : List String) : Except PyErr ℤ :=
  match toks.get? 1 with
  | none => .error .indexError
  | some t =>
    match pyInt (pyStrip t) with
    | none => .error .valueError
    | some v => .ok v

/-- The body of the float-list loops: strip and `float` each token in order,
appending; the first bad token raises `ValueError`. -/
def floatListAux : List String → Except PyErr (List ℚ)
  | [] => .ok []
  | t :: rest =>
    match pyFloat (pyStrip t) with
    | none => .error .valueError
    | some v =>
      match floatListAux rest with
      | .error e => .error e
      | .ok l => .ok (v :: l)

/-- The `for i in range(1, len(split_list))` loops of the float-list branches:
strip and `float` every token after the keyword. -/
def floatListToks (toks : List String) : Except PyErr (List ℚ) :=
  floatListAux (toks.drop 1)

/-- The value each keyword's branch parses from the remaining tokens (the
list keywords consume every token after the keyword). -/
def kwValue : Kw → List String → Except PyErr FieldVal
  | .minFiss, toks => (floatTok toks).map .fq
  | .maxWeight, toks => (floatTok toks).map .fq
  | .srcStrength, toks => (floatTok toks).map .fq
  | .tccDist, toks => (floatTok toks).map .fq
  | .debrisShieldTh, toks => (floatTok toks).map .fq
  | .wallTh, toks => (floatTok toks).map .fq
  | .snoutDist, toks => (floatTok toks).map .fq
  | .coverTh, toks => (floatTok toks).map .fq
  | .mountTh, toks => (floatTok toks).map .fq
  | .faceRadius, toks => (floatTok toks).map .fq
  | .coneOuterRadius, toks => (floatTok toks).map .fq
  | .coneAngle, toks => (floatTok toks).map .fq
  | .debrisShieldMat, toks => (strTok toks).map .fs
  | .structMat, toks => (strTok toks).map .fs
  | .fillMat, toks => (strTok toks).map .fs
  | .fissileFoil, toks => (strTok toks).map .fs
  | .nasTh, toks => (floatTok toks).map .fq
  | .nasR, toks => (floatTok toks).map .fq
  | .nasMat, toks => (strTok toks).map .fs
  | .nasFoils, toks => .ok (.fsl ((toks.drop 1).map pyStrip))
  | .nasFoilTh, toks => (floatListToks toks).map .fql
  | .nasFoilR, toks => (floatTok toks).map .fq
  | .toadFollows, toks => (strTok toks).map .fs
  | .toadMat, toks => (strTok toks).map .fs
  | .toadFoils, toks => .ok (.fsl ((toks.drop 1).map pyStrip))
  | .toadFoilTh, toks => (floatListToks toks).map .fql
  | .toadFoilR, toks => (floatTok toks).map .fq
  | .holderMat, toks => (strTok toks).map .fs
  | .holderFillMat, toks => (strTok toks).map .fs
  | .holderWallTh, toks => (floatTok toks).map .fq
  | .maxVert, toks => (intTok toks).map .fi
  | .maxHoriz, toks => (intTok toks).map .fi

/-- The attribute each keyword's branch assigns. -/
def setField (k : Kw) (v : FieldVal) (s : ETA_State) : ETA_State :=
  match k, v with
  | .minFiss, .fq x => { s with min_fiss := x }
  | .maxWeight, .fq x => { s with max_weight := x }
  | .srcStrength, .fq x => { s with src := x }
  | .tccDist, .fq x => { s with tcc_dist := x }
  | .debrisShieldTh, .fq x => { s with t_ds := x }
  | .wallTh, .fq x => { s with t_w := x }
  | .snoutDist, .fq x => { s with snout_dist := x }
  | .coverTh, .fq x => { s with t_c := x }
  | .mountTh, .fq x => { s with t_m := x }
  | .faceRadius, .fq x => { s with r_f := x }
  | .coneOuterRadius, .fq x => { s with r_o := x }
  | .coneAngle, .fq x => { s with theta := x }
  | .debrisShieldMat, .fs x => { s with ds_mat := x }
  | .structMat, .fs x => { s with struct_mat := x }
  | .fillMat, .fs x => { s with fill_mat := x }
  | .fissileFoil, .fs x => { s with fissile_mat := x }
  | .nasTh, .fq x => { s with t_nas := x }
  | .nasR, .fq x => { s with r_nas := x }
  | .nasMat, .fs x => { s with nas_mat := x }
  | .nasFoils, .fsl x => { s with nas_mat_f := x }
  | .nasFoilTh, .fql x => { s with t_nas_f := x }
  | .nasFoilR, .fq x => { s with r_nas_f := x }
  | .toadFollows, .fs x => { s with toad_loc := x }
  | .toadMat, .fs x => { s with toad_mat := x }
  | .toadFoils, .fsl x => { s with toad_mat_f := x }
  | .toadFoilTh, .fql x => { s with t_toad := x }
  | .toadFoilR, .fq x => { s with r_toad := x }
  | .holderMat, .fs x => { s with holder_mat := x }
  | .holderFillMat, .fs x => { s with h_fill_mat := x }
  | .holderWallTh, .fq x => { s with t_h := x }
  | .maxVert, .fi x => { s with max_vert := x }
  | .maxHoriz, .fi x => { s with max_horiz := x }
  | _, _ => s

/-- The current value of the attribute a keyword's branch assigns (the
observation dual of `setField`). -/
def fieldOf (k : Kw) (s : ETA_State) : FieldVal :=
  match k with
  | .minFiss => .fq s.min_fiss
  | .maxWeight => .fq s.max_weight
  | .srcStrength => .fq s.src
  | .tccDist => .fq s.tcc_dist
  | .debrisShieldTh => .fq s.t_ds
  | .wallTh => .fq s.t_w
  | .snoutDist => .fq s.snout_dist
  | .coverTh => .fq s.t_c
  | .mountTh => .fq s.t_m
  | .faceRadius => .fq s.r_f
  | .coneOuterRadius => .fq s.r_o
  | .coneAngle => .fq s.theta
  | .debrisShieldMat => .fs s.ds_mat
  | .structMat => .fs s.struct_mat
  | .fillMat => .fs s.fill_mat
  | .fissileFoil => .fs s.fissile_mat
  | .nasTh => .fq s.t_nas
  | .nasR => .fq s.r_nas
  | .nasMat => .fs s.nas_mat
  | .nasFoils => .fsl s.nas_mat_f
  | .nasFoilTh => .fql s.t_nas_f
  | .nasFoilR => .fq s.r_nas_f
  | .toadFollows => .fs s.toad_loc
  | .toadMat => .fs s.toad_mat
  | .toadFoils => .fsl s.toad_mat_f
  | .toadFoilTh => .fql s.t_toad
  | .toadFoilR => .fq s.r_toad
  | .holderMat => .fs s.holder_mat
  | .holderFillMat => .fs s.h_fill_mat
  | .holderWallTh => .fq s.t_h
  | .maxVert => .fi s.max_vert
  | .maxHoriz => .fi s.max_horiz

/-- One keyword branch: parse the value from the remaining tokens, then store
it in the branch's field. -/
def kwAction (k : Kw) (toks : List String) (s : ETA_State) : Except PyErr ETA_State :=
  (kwValue k toks).map (fun v => setField k v s)

/-- The dispatch key of a split line: `split_list[0].strip().lower()`. -/
def lineKey (toks : List String) : String :=
  pyLower (pyStrip (toks.headD ""))

/-- One iteration of the `read_constraints` line loop (source lines 361–487):
the `Switch` chain tries each keyword in order, then the comment case `/`,
then the default case, which only logs a warning.  The second component
counts warnings emitted (the `module_logger.warning` call). -/
def processTokens (s : ETA_State) (toks : List String) : Except PyErr (ETA_State × ℕ) :=
  match kwList.find? (fun k => kwStr k = lineKey toks) with
  | some k => (kwAction k toks s).map (fun s2 => (s2, 0))
  | none => if lineKey toks = "/" then .ok (s, 0) else .ok (s, 1)

/-- The whole `for line in self.f` loop, threading the mutated state and the
warning count. -/
def parseLines : ETA_State → ℕ → List String → Except PyErr (ETA_State × ℕ)
  | s, w, [] => .ok (s, w)
  | s, w, line :: rest =>
    match processTokens s (pySplit line) with
    | .error e => .error e
    | .ok p => parseLines p.1 (w + p.2) rest

/-- Source lines 500–502: `for i in range(0, len(toad_mat_f)): if
toad_mat_f[i] == fissile_mat: ind = i`.  The loop leaves `ind` holding the
last matching index; `none` models `ind` never being bound. -/
def lastMatchIdx (l : List String) (m : String) : Option ℕ :=
  (List.range l.length).foldl (fun acc i => if l.get? i = some m then some i else acc) none

/-- Source lines 499–503, the end-of-parse renormalization: divide the current
`min_fiss` field by `src * r_toad**2 * pi * t_toad[ind]`. -/
def recompute (piv : ℚ) (s : ETA_State) : Except PyErr ETA_State :=
  match lastMatchIdx s.toad_mat_f s.fissile_mat with
  | none => .error .nameError
  | some ind =>
    match s.t_toad.get? ind with
    | none => .error .indexError
    | some t => .ok { s with min_fiss := s.min_fiss / (s.src * s.r_toad ^ 2 * piv * t) }

/-- Method `ETA_Parameters.read_constraints` (source lines 312–503): open failure
terminates with the secondary error; otherwise every line runs through the
dispatch loop, the file is closed, and `recompute` overwrites `min_fiss`. -/
def read_constraints (piv : ℚ) (s : ETA_State) (file : Option (List String)) :
    Except PyErr (ETA_State × ℕ) :=
  match file with
  | none => .error .openFailSecondary
  | some lines =>
    match parseLines s 0 lines with
    | .error e => .error e
    | .ok p =>
      match recompute piv p.1 with
      | .error e => .error e
      | .ok s2 => .ok (s2, p.2)

/-- The state a default-argument construction produces (the `Parameter Model`
defaults): the fissile-index bug makes the constructor divide by
`t_toad[-1] = 0.0127`. -/
def defaultState (piv : ℚ) : ETA_State where
  spectrum_type := "normalized differential"
  spectrum := []
  min_fiss := (5e8 : ℚ) / ((5e15 : ℚ) * (1.252 : ℚ) ^ 2 * piv * (0.0127 : ℚ))
  max_weight := 125.0
  src := 5e15
  tcc_dist := 15.24
  t_ds := 0.3
  t_w := 0.5
  snout_dist := 52.14
  t_c := 1.0
  t_m := 2.4
  r_f := 5.48
  r_o := 9.39
  theta := 70.22
  ds_mat := "Al"
  struct_mat := "Al"
  fill_mat := "Air (dry near sea level)"
  fissile_mat := "Pb"
  t_nas := 0.014
  r_nas := 2.69
  nas_mat := "Al"
  t_nas_f := [0.1, 0.1, 0.1, 0.1, 0.01]
  r_nas_f := 2.5
  nas_mat_f := ["Zr", "Zn", "In", "Al", "Ta"]
  toad_loc := "In"
  toad_mat := "Al"
  t_toad := [0.0254, 0.0127]
  r_toad := 1.252
  toad_mat_f := ["Au", "Pb"]
  holder_mat := "Al"
  h_fill_mat := "Fe"
  t_h := 2.0
  max_vert := 3
  max_horiz := 7

/-- Constructor arguments with the fissile material first in the TOAD stack
(all other arguments at their defaults). -/
def c1args : InitArgs := { defaultArgs with toad_foil_mat := ["Pb", "Au"] }

/-- Constructor arguments with both TOAD lists empty: the length invariant
holds vacuously. -/
def c3args : InitArgs := { defaultArgs with toad_foil_th := [], toad_foil_mat := [] }

/-- Constructor arguments violating the NAS list-length invariant. -/
def c3badargs : InitArgs := { defaultArgs with nas_foil_th := [] }

theorem except_map_ok {α β : Type} {f : α → β} {x : Except PyErr α} {v : β}
    (h : x.map f = .ok v) : ∃ a, x = .ok a ∧ v = f a := by
  cases x with
  | error e => exact absurd h (by simp [Except.map])
  | ok a => exact ⟨a, rfl, by simpa [Except.map] using h.symm⟩

theorem pyIndex_neg_one {α : Type} (xs : List α) : pyIndex xs (-1) = xs.getLast? := by
  unfold pyIndex
  rcases xs with _ | ⟨a, rest⟩
  · simp
  · rw [if_neg (by decide)]
    have h2 : (0 : ℤ) ≤ ((a :: rest).length : ℤ) + -1 := by
      simp only [List.length_cons]
      omega
    rw [if_pos h2]
    have h3 : (((a :: rest).length : ℤ) + -1).toNat = (a :: rest).length - 1 := by omega
    rw [h3, List.get?_eq_getElem?, List.getLast?_eq_getElem?]

theorem ctorFissInd_eq_neg_one (mats : List String) (fiss : String) :
    ctorFissInd mats fiss = -1 := by
  unfold ctorFissInd
  have h : mats.enum.find? (fun p => enumPairEqStr p fiss) = none :=
    List.find?_eq_none.mpr (fun x _ => by simp [enumPairEqStr])
  rw [h]

/-- C10: for every choice of constructor arguments the constructor's
fissile-material index lookup compares `(index, value)` pairs against the
`fissile_mat` string, never matches, and falls back to `-1`; hence whenever
construction succeeds the normalized `min_fiss` divides by the last element
of `toad_foil_th`, regardless of where (or whether) `fissile_mat` occurs in
`toad_foil_mat`. -/
theorem claim_C10_ctor_divides_by_last_thickness (piv : ℚ) (a : InitArgs) :
    (∀ mats fiss, ctorFissInd mats fiss = -1) ∧
    (∀ s, init piv a = .ok s →
      ∃ tl, a.toad_foil_th.getLast? = some tl ∧
        s.min_fiss = a.min_fiss / (a.src * a.toad_foil_r ^ 2 * piv * tl)) := by
  refine ⟨ctorFissInd_eq_neg_one, ?_⟩
  intro s h
  unfold init at h
  rw [ctorFissInd_eq_neg_one, pyIndex_neg_one] at h
  split at h
  · exact absurd h (by simp)
  · split at h
    · exact absurd h (by simp)
    · split at h
      · exact absurd h (by simp)
      · rename_i t ht
        cases h
        exact ⟨t, ht, rfl⟩

/-- C1 (failing input): with `toad_foil_mat = ['Pb', 'Au']` the fissile
material `'Pb'` occurs at zero-based index 0, whose thickness is
`toad_foil_th[0] = 0.0254`; yet the as-built constructor normalizes by the
last thickness `0.0127`, so the claimed normalization fails. -/
theorem claim_C1_code_divergence :
    c1args.toad_foil_mat.get? 0 = some c1args.fissile_mat ∧
    ∃ s, init (157/50) c1args = .ok s ∧
      s.min_fiss = c1args.min_fiss /
        (c1args.src * c1args.toad_foil_r ^ 2 * (157/50) * (0.0127 : ℚ)) ∧
      s.min_fiss ≠ c1args.min_fiss /
        (c1args.src * c1args.toad_foil_r ^ 2 * (157/50) * (0.0254 : ℚ)) := by
  refine ⟨rfl, _, rfl, rfl, ?_⟩
  show (5e8 : ℚ) / ((5e15 : ℚ) * (1.252 : ℚ) ^ 2 * (157/50) * (0.0127 : ℚ)) ≠
      (5e8 : ℚ) / ((5e15 : ℚ) * (1.252 : ℚ) ^ 2 * (157/50) * (0.0254 : ℚ))
  norm_num

/-- C6: when the objective-spectrum or constraints file cannot be opened, the
routine (after logging the OS error) hits the closed-handle check on the
never-acquired handle and terminates with that secondary error instead of
returning normally or raising a single error carrying the original cause. -/
theorem claim_C6_open_failure_secondary_error :
    (∀ s, read_obj s none = .error .openFailSecondary) ∧
    (∀ piv s, read_constraints piv s none = .error .openFailSecondary) :=
  ⟨fun _ => rfl, fun _ _ => rfl⟩

/-- C7: parsing a spectrum file with first line `normalized` and rows
`1.0,0.1` and `2.0,0.05` sets `spectrum_type` to `"normalized"` and
`spectrum` to exactly `[(1.0, 0.1), (2.0, 0.05)]` in file order. -/
theorem claim_C7_read_obj_file_order (s : ETA_State) :
    ∃ e1 f1 e2 f2,
      read_obj s (some ["normalized", "1.0,0.1", "2.0,0.05"]) =
        .ok { s with spectrum_type := "normalized", spectrum := [(e1, f1), (e2, f2)] } ∧
      e1 = 1.0 ∧ f1 = 0.1 ∧ e2 = 2.0 ∧ f2 = 0.05 := by
  refine ⟨_, _, _, _, rfl, ?_, ?_, ?_, ?_⟩
  · show (1 : ℚ) * ((natOfDigits ['1'] : ℚ) + (natOfDigits ['0'] : ℚ) / 10 ^ 1) = 1.0
    rw [show natOfDigits ['1'] = 1 from by decide, show natOfDigits ['0'] = 0 from by decide]
    norm_num
  · show (1 : ℚ) * ((natOfDigits ['0'] : ℚ) + (natOfDigits ['1'] : ℚ) / 10 ^ 1) = 0.1
    rw [show natOfDigits ['1'] = 1 from by decide, show natOfDigits ['0'] = 0 from by decide]
    norm_num
  · show (1 : ℚ) * ((natOfDigits ['2'] : ℚ) + (natOfDigits ['0'] : ℚ) / 10 ^ 1) = 2.0
    rw [show natOfDigits ['2'] = 2 from by decide, show natOfDigits ['0'] = 0 from by decide]
    norm_num
  · show (1 : ℚ) * ((natOfDigits ['0'] : ℚ) + (natOfDigits ['0', '5'] : ℚ) / 10 ^ 2) = 0.05
    rw [show natOfDigits ['0', '5'] = 5 from by decide, show natOfDigits ['0'] = 0 from by decide]
    norm_num

/-- C8: a line whose first comma-separated token begins, after stripping,
with `/` never mutates any model field (it is either the comment case `/`
itself or an unmatched keyword that only logs a warning). -/
theorem claim_C8_slash_lines_no_mutation (s : ETA_State) (toks : List String)
    (h : (pyStrip (toks.headD "")).data.head? = some '/') :
    ∃ w, processTokens s toks = .ok (s, w) := by
  have hkey : (lineKey toks).data.head? = some '/' := by
    show ((pyStrip (toks.headD "")).data.map pyLowerChar).head? = some '/'
    rw [List.head?_map, h]
    rfl
  have hnone : kwList.find? (fun k => kwStr k = lineKey toks) = none := by
    apply List.find?_eq_none.mpr
    intro k _
    simp only [decide_eq_true_eq]
    intro he
    rw [← he] at hkey
    cases k <;> exact absurd hkey (by decide)
  unfold processTokens
  rw [hnone]
  by_cases hsl : lineKey toks = "/"
  · exact ⟨0, by rw [if_pos hsl]⟩
  · exact ⟨1, by rw [if_neg hsl]⟩

/-- C8 witness: a concrete line whose first token is `/ comment` (it begins
with `/` but is not the bare comment token) leaves the default state
untouched. -/
theorem claim_C8_witness :
    ∃ w, processTokens (defaultState (157/50)) ["/ comment", " 42"] =
      .ok (defaultState (157/50), w) :=
  claim_C8_slash_lines_no_mutation (defaultState (157/50)) ["/ comment", " 42"] (by decide)

/-- C3 counterexample: construction can raise a fatal error with both
equal-length invariants satisfied (empty TOAD lists make the constructor's
`t_toad[-1]` an `IndexError`), and a successful constraints parse can leave
the TOAD lists with different lengths (a `TOAD Activation Foils` line
rewrites only the material list). -/
theorem claim_C3_counterexample :
    c3args.nas_foil_th.length = c3args.nas_foil_mat.length ∧
    c3args.toad_foil_th.length = c3args.toad_foil_mat.length ∧
    init (157/50) c3args = .error .indexError ∧
    ∃ s2, read_constraints (157/50) (defaultState (157/50))
        (some ["TOAD Activation Foils,W,Pb,Mo"]) = .ok (s2, 0) ∧
      s2.toad_mat_f.length = 3 ∧ s2.t_toad.length = 2 :=
  ⟨rfl, rfl, rfl, _, rfl, rfl, rfl⟩

/-- C3 amended: the constructor raises its fatal list-length assertion error
exactly when a NAS or TOAD thickness/material length invariant is violated
(checked before anything is stored), and on success both equal-length
invariants hold; a successful constraints parse, however, need not preserve
them. -/
theorem claim_C3_amended (piv : ℚ) (a : InitArgs) :
    ((init piv a = .error .assertNasLen ∨ init piv a = .error .assertToadLen) ↔
      (a.nas_foil_th.length ≠ a.nas_foil_mat.length ∨
        a.toad_foil_th.length ≠ a.toad_foil_mat.length)) ∧
    (∀ s, init piv a = .ok s →
      s.t_nas_f.length = s.nas_mat_f.length ∧ s.t_toad.length = s.toad_mat_f.length) := by
  constructor
  · by_cases h1 : a.nas_foil_th.length = a.nas_foil_mat.length
    · by_cases h2 : a.toad_foil_th.length = a.toad_foil_mat.length
      · apply iff_of_false
        · intro h
          rcases h with h | h <;>
            (unfold init at h
             rw [if_neg (not_not_intro h1), if_neg (not_not_intro h2)] at h
             split at h <;> exact absurd h (by simp))
        · simp [h1, h2]
      · apply iff_of_true
        · right
          unfold init
          rw [if_neg (not_not_intro h1), if_pos h2]
        · exact Or.inr h2
    · apply iff_of_true
      · left
        unfold init
        rw [if_pos h1]
      · exact Or.inl h1
  · intro s h
    unfold init at h
    by_cases h1 : a.nas_foil_th.length = a.nas_foil_mat.length
    · by_cases h2 : a.toad_foil_th.length = a.toad_foil_mat.length
      · rw [if_neg (not_not_intro h1), if_neg (not_not_intro h2)] at h
        split at h
        · exact absurd h (by simp)
        · cases h
          exact ⟨h1, h2⟩
      · rw [if_neg (not_not_intro h1), if_pos h2] at h
        exact absurd h (by simp)
    · rw [if_pos h1] at h
      exact absurd h (by simp)

/-- C3 witness: a mismatched NAS list raises the assertion error, and the
default construction satisfies both invariants. -/
theorem claim_C3_witness :
    (init (157/50) c3badargs = .error .assertNasLen ∨
      init (157/50) c3badargs = .error .assertToadLen) ∧
    ((defaultState (157/50)).t_nas_f.length = (defaultState (157/50)).nas_mat_f.length ∧
      (defaultState (157/50)).t_toad.length = (defaultState (157/50)).toad_mat_f.length) :=
  ⟨(claim_C3_amended (157/50) c3badargs).1.mpr (Or.inl (by decide)),
    (claim_C3_amended (157/50) defaultArgs).2 (defaultState (157/50)) rfl⟩

/-- C4 counterexample: parsing `ETA Max Weight,100.0` from the default state
does set `max_weight` to 100.0, but the mandatory end-of-parse
renormalization divides `min_fiss` again, so `min_fiss` does not keep its
default value. -/
theorem claim_C4_counterexample :
    ∃ s1, read_constraints (157/50) (defaultState (157/50))
        (some ["ETA Max Weight,100.0"]) = .ok (s1, 0) ∧
      s1.max_weight = 100.0 ∧ s1.min_fiss ≠ (defaultState (157/50)).min_fiss := by
  refine ⟨_, rfl, ?_, ?_⟩
  · show (1 : ℚ) * ((natOfDigits ['1', '0', '0'] : ℚ) + (natOfDigits ['0'] : ℚ) / 10 ^ 1) = 100.0
    rw [show natOfDigits ['1', '0', '0'] = 100 from by decide,
      show natOfDigits ['0'] = 0 from by decide]
    norm_num
  · show (5e8 : ℚ) / ((5e15 : ℚ) * (1.252 : ℚ) ^ 2 * (157/50) * (0.0127 : ℚ)) /
        ((5e15 : ℚ) * (1.252 : ℚ) ^ 2 * (157/50) * (0.0127 : ℚ)) ≠
      (5e8 : ℚ) / ((5e15 : ℚ) * (1.252 : ℚ) ^ 2 * (157/50) * (0.0127 : ℚ))
    norm_num

/-- C4 amended: parsing a constraints file whose only line is
`ETA Max Weight,100.0` from a default-constructed model sets `max_weight` to
100.0, emits no warning, leaves every field other than `max_weight` and
`min_fiss` at its default, and overwrites `min_fiss` with its default value
divided by `src * r_toad^2 * pi * t_toad[1]` (the end-of-parse
renormalization at the resolved fissile index 1). -/
theorem claim_C4_amended (piv : ℚ) :
    ∃ s1, read_constraints piv (defaultState piv) (some ["ETA Max Weight,100.0"]) =
        .ok (s1, 0) ∧
      s1.max_weight = 100.0 ∧
      s1.min_fiss = (defaultState piv).min_fiss /
        ((defaultState piv).src * (defaultState piv).r_toad ^ 2 * piv * (0.0127 : ℚ)) ∧
      s1.spectrum_type = (defaultState piv).spectrum_type ∧
      s1.spectrum = (defaultState piv).spectrum ∧
      s1.src = (defaultState piv).src ∧
      s1.tcc_dist = (defaultState piv).tcc_dist ∧
      s1.t_ds = (defaultState piv).t_ds ∧
      s1.t_w = (defaultState piv).t_w ∧
      s1.snout_dist = (defaultState piv).snout_dist ∧
      s1.t_c = (defaultState piv).t_c ∧
      s1.t_m = (defaultState piv).t_m ∧
      s1.r_f = (defaultState piv).r_f ∧
      s1.r_o = (defaultState piv).r_o ∧
      s1.theta = (defaultState piv).theta ∧
      s1.ds_mat = (defaultState piv).ds_mat ∧
      s1.struct_mat = (defaultState piv).struct_mat ∧
      s1.fill_mat = (defaultState piv).fill_mat ∧
      s1.fissile_mat = (defaultState piv).fissile_mat ∧
      s1.t_nas = (defaultState piv).t_nas ∧
      s1.r_nas = (defaultState piv).r_nas ∧
      s1.nas_mat = (defaultState piv).nas_mat ∧
      s1.t_nas_f = (defaultState piv).t_nas_f ∧
      s1.r_nas_f = (defaultState piv).r_nas_f ∧
      s1.nas_mat_f = (defaultState piv).nas_mat_f ∧
      s1.toad_loc = (defaultState piv).toad_loc ∧
      s1.toad_mat = (defaultState piv).toad_mat ∧
      s1.t_toad = (defaultState piv).t_toad ∧
      s1.r_toad = (defaultState piv).r_toad ∧
      s1.toad_mat_f = (defaultState piv).toad_mat_f ∧
      s1.holder_mat = (defaultState piv).holder_mat ∧
      s1.h_fill_mat = (defaultState piv).h_fill_mat ∧
      s1.t_h = (defaultState piv).t_h ∧
      s1.max_vert = (defaultState piv).max_vert ∧
      s1.max_horiz = (defaultState piv).max_horiz := by
  refine ⟨_, rfl, ?_, rfl, rfl, rfl, rfl, rfl, rfl, rfl, rfl, rfl, rfl, rfl, rfl, rfl, rfl,
    rfl, rfl, rfl, rfl, rfl, rfl, rfl, rfl, rfl, rfl, rfl, rfl, rfl, rfl, rfl, rfl, rfl, rfl,
    rfl⟩
  show (1 : ℚ) * ((natOfDigits ['1', '0', '0'] : ℚ) + (natOfDigits ['0'] : ℚ) / 10 ^ 1) = 100.0
  rw [show natOfDigits ['1', '0', '0'] = 100 from by decide,
    show natOfDigits ['0'] = 0 from by decide]
  norm_num

/-- C5 counterexample: a lone unknown keyword line `Foo,1` is non-fatal and
emits exactly one warning, but the model is not left at its defaults: the
end-of-parse renormalization still overwrites `min_fiss`. -/
theorem claim_C5_counterexample :
    ∃ s1, read_constraints (157/50) (defaultState (157/50)) (some ["Foo,1"]) = .ok (s1, 1) ∧
      s1.min_fiss ≠ (defaultState (157/50)).min_fiss := by
  refine ⟨_, rfl, ?_⟩
  show (5e8 : ℚ) / ((5e15 : ℚ) * (1.252 : ℚ) ^ 2 * (157/50) * (0.0127 : ℚ)) /
      ((5e15 : ℚ) * (1.252 : ℚ) ^ 2 * (157/50) * (0.0127 : ℚ)) ≠
    (5e8 : ℚ) / ((5e15 : ℚ) * (1.252 : ℚ) ^ 2 * (157/50) * (0.0127 : ℚ))
  norm_num

/-- C5 amended: parsing a constraints file whose only line is the unknown
keyword `Foo,1` from a default-constructed model is non-fatal, emits exactly
one warning, leaves every field other than `min_fiss` at its default, and
overwrites `min_fiss` with its default value divided by
`src * r_toad^2 * pi * t_toad[1]` (the end-of-parse renormalization). -/
theorem claim_C5_amended (piv : ℚ) :
    ∃ s1, read_constraints piv (defaultState piv) (some ["Foo,1"]) = .ok (s1, 1) ∧
      s1.min_fiss = (defaultState piv).min_fiss /
        ((defaultState piv).src * (defaultState piv).r_toad ^ 2 * piv * (0.0127 : ℚ)) ∧
      s1.spectrum_type = (defaultState piv).spectrum_type ∧
      s1.spectrum = (defaultState piv).spectrum ∧
      s1.max_weight = (defaultState piv).max_weight ∧
      s1.src = (defaultState piv).src ∧
      s1.tcc_dist = (defaultState piv).tcc_dist ∧
      s1.t_ds = (defaultState piv).t_ds ∧
      s1.t_w = (defaultState piv).t_w ∧
      s1.snout_dist = (defaultState piv).snout_dist ∧
      s1.t_c = (defaultState piv).t_c ∧
      s1.t_m = (defaultState piv).t_m ∧
      s1.r_f = (defaultState piv).r_f ∧
      s1.r_o = (defaultState piv).r_o ∧
      s1.theta = (defaultState piv).theta ∧
      s1.ds_mat = (defaultState piv).ds_mat ∧
      s1.struct_mat = (defaultState piv).struct_mat ∧
      s1.fill_mat = (defaultState piv).fill_mat ∧
      s1.fissile_mat = (defaultState piv).fissile_mat ∧
      s1.t_nas = (defaultState piv).t_nas ∧
      s1.r_nas = (defaultState piv).r_nas ∧
      s1.nas_mat = (defaultState piv).nas_mat ∧
      s1.t_nas_f = (defaultState piv).t_nas_f ∧
      s1.r_nas_f = (defaultState piv).r_nas_f ∧
      s1.nas_mat_f = (defaultState piv).nas_mat_f ∧
      s1.toad_loc = (defaultState piv).toad_loc ∧
      s1.toad_mat = (defaultState piv).toad_mat ∧
      s1.t_toad = (defaultState piv).t_toad ∧
      s1.r_toad = (defaultState piv).r_toad ∧
      s1.toad_mat_f = (defaultState piv).toad_mat_f ∧
      s1.holder_mat = (defaultState piv).holder_mat ∧
      s1.h_fill_mat = (defaultState piv).h_fill_mat ∧
      s1.t_h = (defaultState piv).t_h ∧
      s1.max_vert = (defaultState piv).max_vert ∧
      s1.max_horiz = (defaultState piv).max_horiz :=
  ⟨_, rfl, rfl, rfl, rfl, rfl, rfl, rfl, rfl, rfl, rfl, rfl, rfl, rfl, rfl, rfl, rfl, rfl,
    rfl, rfl, rfl, rfl, rfl, rfl, rfl, rfl, rfl, rfl, rfl, rfl, rfl, rfl, rfl, rfl, rfl, rfl⟩

theorem foldl_lastMatch {l : List String} {m : String} :
    ∀ (idxs : List ℕ) (acc : Option ℕ),
      (∀ j, acc = some j → l.get? j = some m) →
      ∀ j, idxs.foldl (fun a i => if l.get? i = some m then some i else a) acc = some j →
        l.get? j = some m := by
  intro idxs
  induction idxs with
  | nil => exact fun acc hacc j h => hacc j h
  | cons i rest ih =>
    intro acc hacc j h
    simp only [List.foldl_cons] at h
    refine ih _ ?_ j h
    intro j2 hj2
    by_cases hc : l.get? i = some m
    · rw [if_pos hc] at hj2
      cases hj2
      exact hc
    · rw [if_neg hc] at hj2
      exact hacc j2 hj2

theorem lastMatchIdx_mem {l : List String} {m : String} {j : ℕ}
    (h : lastMatchIdx l m = some j) : l.get? j = some m :=
  foldl_lastMatch (List.range l.length) none (fun _ hx => Option.noConfusion hx) j h

theorem read_constraints_ok {piv : ℚ} {s : ETA_State} {lines : List String}
    {s2 : ETA_State} {w : ℕ}
    (h : read_constraints piv s (some lines) = .ok (s2, w)) :
    ∃ s1, parseLines s 0 lines = .ok (s1, w) ∧ recompute piv s1 = .ok s2 := by
  simp only [read_constraints] at h
  split at h
  · exact absurd h (by simp)
  · rename_i p hp
    split at h
    · exact absurd h (by simp)
    · rename_i s3 hr
      injection h with h2
      rw [Prod.mk.injEq] at h2
      refine ⟨p.1, ?_, ?_⟩
      · rw [hp, ← h2.2]
      · rw [← h2.1]
        exact hr

theorem recompute_ok {piv : ℚ} {s1 s2 : ETA_State} (h : recompute piv s1 = .ok s2) :
    ∃ j t, lastMatchIdx s1.toad_mat_f s1.fissile_mat = some j ∧
      s1.t_toad.get? j = some t ∧
      s2 = { s1 with min_fiss := s1.min_fiss / (s1.src * s1.r_toad ^ 2 * piv * t) } := by
  unfold recompute at h
  split at h
  · exact absurd h (by simp)
  · rename_i j hj
    split at h
    · exact absurd h (by simp)
    · rename_i t ht
      injection h with h2
      exact ⟨j, t, hj, ht, h2.symm⟩

/-- C2: after any completed constraints parse, the new `min_fiss` equals the
post-parse `min_fiss` value divided by `src * r_toad^2 * pi * t`, with `t`
the TOAD thickness at the (last) index where `fissile_mat` appears in
`toad_mat_f`, all at their final post-parse values; and for two parses whose
post-parse states differ only in that `src` is doubled, the second derived
`min_fiss` is exactly half the first. -/
theorem claim_C2_derived_min_fiss (piv : ℚ) :
    (∀ s lines s2 w, read_constraints piv s (some lines) = .ok (s2, w) →
      ∃ s1 j t, parseLines s 0 lines = .ok (s1, w) ∧
        lastMatchIdx s1.toad_mat_f s1.fissile_mat = some j ∧
        s1.toad_mat_f.get? j = some s1.fissile_mat ∧
        s1.t_toad.get? j = some t ∧
        s2.min_fiss = s1.min_fiss / (s1.src * s1.r_toad ^ 2 * piv * t)) ∧
    (∀ s lines lines2 s1 s1' w w' s2,
      parseLines s 0 lines = .ok (s1, w) →
      parseLines s 0 lines2 = .ok (s1', w') →
      s1' = { s1 with src := 2 * s1.src } →
      read_constraints piv s (some lines) = .ok (s2, w) →
      ∃ s2', read_constraints piv s (some lines2) = .ok (s2', w') ∧
        s2'.min_fiss = s2.min_fiss / 2) := by
  constructor
  · intro s lines s2 w h
    obtain ⟨s1, hp, hr⟩ := read_constraints_ok h
    obtain ⟨j, t, hj, ht, hs2⟩ := recompute_ok hr
    exact ⟨s1, j, t, hp, hj, lastMatchIdx_mem hj, ht, by rw [hs2]⟩
  · intro s lines lines2 s1 s1' w w' s2 hp1 hp2 heq h
    obtain ⟨s1b, hpb, hrb⟩ := read_constraints_ok h
    have hdet : s1b = s1 := by
      rw [hp1] at hpb
      injection hpb with h2
      exact (congrArg Prod.fst h2).symm
    subst hdet
    obtain ⟨j, t, hj, ht, hs2b⟩ := recompute_ok hrb
    have hj2 : lastMatchIdx s1'.toad_mat_f s1'.fissile_mat = some j := by
      rw [heq]; exact hj
    have ht2 : s1'.t_toad.get? j = some t := by
      rw [heq]; exact ht
    have hr2 : recompute piv s1' =
        .ok { s1' with min_fiss := s1'.min_fiss / (s1'.src * s1'.r_toad ^ 2 * piv * t) } := by
      unfold recompute
      rw [hj2]
      dsimp only
      rw [ht2]
    refine ⟨{ s1' with min_fiss := s1'.min_fiss / (s1'.src * s1'.r_toad ^ 2 * piv * t) }, ?_, ?_⟩
    · simp only [read_constraints]
      rw [hp2]
      dsimp only
      rw [hr2]
    · rw [hs2b, heq]
      show s1b.min_fiss / (2 * s1b.src * s1b.r_toad ^ 2 * piv * t) =
        s1b.min_fiss / (s1b.src * s1b.r_toad ^ 2 * piv * t) / 2
      rw [div_div]
      congr 1
      ring

/-- C2 witness: from the default state, a parse setting `Source Strength` to
`2e15` yields exactly half the derived `min_fiss` of a parse setting it to
`1e15`. -/
theorem claim_C2_witness :
    ∃ s2 s2', read_constraints (157/50) (defaultState (157/50))
        (some ["Source Strength,1e15"]) = .ok (s2, 0) ∧
      read_constraints (157/50) (defaultState (157/50))
        (some ["Source Strength,2e15"]) = .ok (s2', 0) ∧
      s2'.min_fiss = s2.min_fiss / 2 := by
  obtain ⟨s2', h1, h2⟩ :=
    (claim_C2_derived_min_fiss (157/50)).2 (defaultState (157/50))
      ["Source Strength,1e15"] ["Source Strength,2e15"] _ _ 0 0 _ rfl rfl
      (by
        apply ETA_State.ext <;>
          first
            | rfl
            | (show (1 : ℚ) * ((natOfDigits ['2'] : ℚ) + (natOfDigits [] : ℚ) / 10 ^ 0) *
                    (10 : ℚ) ^ ((1 : ℤ) * (natOfDigits ['1', '5'] : ℤ)) =
                  2 * ((1 : ℚ) * ((natOfDigits ['1'] : ℚ) + (natOfDigits [] : ℚ) / 10 ^ 0) *
                    (10 : ℚ) ^ ((1 : ℤ) * (natOfDigits ['1', '5'] : ℤ)))
               rw [show natOfDigits ['2'] = 2 from by decide,
                 show natOfDigits ['1'] = 1 from by decide,
                 show natOfDigits [] = 0 from by decide]
               push_cast
               ring))
      rfl
  exact ⟨_, s2', rfl, h1, h2⟩

theorem kwStr_injective : ∀ a b : Kw, kwStr a = kwStr b → a = b := by decide

theorem mem_kwList (k : Kw) : k ∈ kwList := by cases k <;> decide

theorem fieldOf_setField_ne {k k2 : Kw} (hne : k ≠ k2) (v : FieldVal) (s : ETA_State) :
    fieldOf k2 (setField k v s) = fieldOf k2 s := by
  cases k <;> cases k2 <;>
    first
      | exact absurd rfl hne
      | (cases v <;> rfl)

theorem fieldOf_setField {k : Kw} {toks : List String} {v : FieldVal} (s : ETA_State)
    (h : kwValue k toks = .ok v) : fieldOf k (setField k v s) = v := by
  cases k <;>
    first
      | (injection h with h2; rw [← h2]; rfl)
      | (obtain ⟨a, -, rfl⟩ := except_map_ok h; rfl)

theorem floatListAux_length : ∀ {ts : List String} {l : List ℚ},
    floatListAux ts = .ok l → l.length = ts.length := by
  intro ts
  induction ts with
  | nil =>
    intro l h
    injection h with h2
    rw [← h2]
    rfl
  | cons t rest ih =>
    intro l h
    unfold floatListAux at h
    split at h
    · exact absurd h (by simp)
    · split at h
      · exact absurd h (by simp)
      · rename_i l2 hl2
        injection h with h2
        rw [← h2, List.length_cons, List.length_cons, ih hl2]

theorem kwValue_fsl_arity {k : Kw} {toks : List String} {m : List String}
    (h : kwValue k toks = .ok (.fsl m)) : m.length = toks.length - 1 := by
  cases k <;>
    first
      | (injection h with h2; injection h2 with h3; rw [← h3, List.length_map, List.length_drop])
      | (obtain ⟨a, -, hfa⟩ := except_map_ok h; exact absurd hfa (by simp))

theorem kwValue_fql_arity {k : Kw} {toks : List String} {m : List ℚ}
    (h : kwValue k toks = .ok (.fql m)) : m.length = toks.length - 1 := by
  cases k <;>
    first
      | (injection h with h2; exact absurd h2 (by simp))
      | (obtain ⟨l, hl, hfa⟩ := except_map_ok h; injection hfa with h3;
         rw [h3, floatListAux_length hl, List.length_drop])
      | (obtain ⟨a, -, hfa⟩ := except_map_ok h; exact absurd hfa (by simp))

theorem processTokens_frame {s s2 : ETA_State} {toks : List String} {w : ℕ} {k : Kw}
    (h : processTokens s toks = .ok (s2, w)) (hk : lineKey toks ≠ kwStr k) :
    fieldOf k s2 = fieldOf k s := by
  unfold processTokens at h
  cases hf : kwList.find? (fun k2 => kwStr k2 = lineKey toks) with
  | none =>
    rw [hf] at h
    by_cases hsl : lineKey toks = "/"
    · rw [if_pos hsl] at h
      injection h with h2
      have hs : s = s2 := congrArg Prod.fst h2
      rw [← hs]
    · rw [if_neg hsl] at h
      injection h with h2
      have hs : s = s2 := congrArg Prod.fst h2
      rw [← hs]
  | some k2 =>
    rw [hf] at h
    obtain ⟨s3, hact, hpair⟩ := except_map_ok h
    have hs : s2 = s3 := congrArg Prod.fst hpair
    obtain ⟨v, hv, rfl⟩ := except_map_ok hact
    have hk2 : kwStr k2 = lineKey toks := by simpa using List.find?_some hf
    have hne : k2 ≠ k := fun he => hk (by rw [← hk2, he])
    rw [hs]
    exact fieldOf_setField_ne hne v s

theorem processTokens_write {s s2 : ETA_State} {toks : List String} {w : ℕ} {k : Kw}
    (h : processTokens s toks = .ok (s2, w)) (hk : lineKey toks = kwStr k) :
    ∃ v, kwValue k toks = .ok v ∧ fieldOf k s2 = v := by
  unfold processTokens at h
  cases hf : kwList.find? (fun k2 => kwStr k2 = lineKey toks) with
  | none =>
    exfalso
    have hnot := List.find?_eq_none.mp hf k (mem_kwList k)
    simp only [decide_eq_true_eq] at hnot
    exact hnot hk.symm
  | some k2 =>
    rw [hf] at h
    obtain ⟨s3, hact, hpair⟩ := except_map_ok h
    have hs : s2 = s3 := congrArg Prod.fst hpair
    obtain ⟨v, hv, rfl⟩ := except_map_ok hact
    have hk2 : kwStr k2 = lineKey toks := by simpa using List.find?_some hf
    have hkk : k2 = k := kwStr_injective k2 k (by rw [hk2, hk])
    subst hkk
    refine ⟨v, hv, ?_⟩
    rw [hs]
    exact fieldOf_setField s hv

theorem parseLines_cons_ok {s : ETA_State} {w : ℕ} {line : String} {rest : List String}
    {s2 : ETA_State} {w2 : ℕ}
    (h : parseLines s w (line :: rest) = .ok (s2, w2)) :
    ∃ p, processTokens s (pySplit line) = .ok p ∧ parseLines p.1 (w + p.2) rest = .ok (s2, w2) := by
  unfold parseLines at h
  cases hp : processTokens s (pySplit line) with
  | error e => rw [hp] at h; exact absurd h (by simp)
  | ok p =>
    rw [hp] at h
    exact ⟨p, rfl, h⟩

theorem parseLines_append_ok {l1 : List String} :
    ∀ {s : ETA_State} {w : ℕ} {l2 : List String} {s2 : ETA_State} {w2 : ℕ},
      parseLines s w (l1 ++ l2) = .ok (s2, w2) →
      ∃ p, parseLines s w l1 = .ok p ∧ parseLines p.1 p.2 l2 = .ok (s2, w2) := by
  induction l1 with
  | nil => exact fun h => ⟨(_, _), rfl, h⟩
  | cons line rest ih =>
    intro s w l2 s2 w2 h
    rw [List.cons_append] at h
    obtain ⟨p, hp, hrest⟩ := parseLines_cons_ok h
    obtain ⟨q, hq, h2⟩ := ih hrest
    refine ⟨q, ?_, h2⟩
    unfold parseLines
    rw [hp]
    exact hq

theorem parseLines_frame {k : Kw} {ls : List String} :
    ∀ {s : ETA_State} {w : ℕ} {s2 : ETA_State} {w2 : ℕ},
      parseLines s w ls = .ok (s2, w2) →
      (∀ M ∈ ls, lineKey (pySplit M) ≠ kwStr k) →
      fieldOf k s2 = fieldOf k s := by
  induction ls with
  | nil =>
    intro s w s2 w2 h _
    injection h with h2
    have hs : s = s2 := congrArg Prod.fst h2
    rw [← hs]
  | cons line rest ih =>
    intro s w s2 w2 h hall
    obtain ⟨p, hp, hrest⟩ := parseLines_cons_ok h
    have h1 : fieldOf k p.1 = fieldOf k s :=
      processTokens_frame hp (hall line (by simp))
    have h2 := ih hrest (fun M hM => hall M (by simp [hM]))
    rw [h2, h1]

/-- C9: if a recognized keyword's last occurrence in a constraints file is
line `L` (no later line carries that keyword), then after a completed parse
the keyword's field holds exactly the value parsed from `L`; list keywords
consume every token after the keyword, so the stored list's length is the
number of value tokens on that last occurrence. -/
theorem claim_C9_last_write_wins (s : ETA_State) (l1 l2 : List String) (L : String) (k : Kw)
    (s2 : ETA_State) (w : ℕ)
    (hrun : parseLines s 0 (l1 ++ L :: l2) = .ok (s2, w))
    (hkey : lineKey (pySplit L) = kwStr k)
    (hlast : ∀ M ∈ l2, lineKey (pySplit M) ≠ kwStr k) :
    ∃ v, kwValue k (pySplit L) = .ok v ∧ fieldOf k s2 = v ∧
      (∀ m, v = FieldVal.fsl m → m.length = (pySplit L).length - 1) ∧
      (∀ m, v = FieldVal.fql m → m.length = (pySplit L).length - 1) := by
  obtain ⟨p, hp1, hrest⟩ := parseLines_append_ok hrun
  obtain ⟨q, hq, hrest2⟩ := parseLines_cons_ok hrest
  obtain ⟨v, hv, hfield⟩ := processTokens_write hq hkey
  have hframe := parseLines_frame hrest2 hlast
  refine ⟨v, hv, by rw [hframe, hfield], ?_, ?_⟩
  · intro m hm
    rw [hm] at hv
    exact kwValue_fsl_arity hv
  · intro m hm
    rw [hm] at hv
    exact kwValue_fql_arity hv

/-- C9 witness: with two `TOAD Activation Foil Thickness` lines, the stored
thickness list comes from the later line and has one entry per value token
on it. -/
theorem claim_C9_witness :
    ∃ s2 v, parseLines (defaultState (157/50)) 0
        ["TOAD Activation Foil Thickness,0.1",
         "TOAD Activation Foil Thickness,0.2,0.3",
         "ETA Max Weight,50"] = .ok (s2, 0) ∧
      kwValue Kw.toadFoilTh (pySplit "TOAD Activation Foil Thickness,0.2,0.3") = .ok v ∧
      fieldOf Kw.toadFoilTh s2 = v ∧
      (∀ m, v = FieldVal.fql m →
        m.length = (pySplit "TOAD Activation Foil Thickness,0.2,0.3").length - 1) := by
  obtain ⟨v, h1, h2, h3, h4⟩ :=
    claim_C9_last_write_wins (defaultState (157/50))
      ["TOAD Activation Foil Thickness,0.1"]
      ["ETA Max Weight,50"]
      "TOAD Activation Foil Thickness,0.2,0.3" Kw.toadFoilTh _ 0 rfl (by decide) (by decide)
  exact ⟨_, v, rfl, h1, h2, h4⟩

/-- C10 witness: with the fissile material at index 0 of the TOAD list, the
lookup still yields `-1` and construction divides by the last thickness. -/
theorem claim_C10_witness :
    (∀ mats fiss, ctorFissInd mats fiss = -1) ∧
    ∃ s tl, init (157/50) c1args = .ok s ∧ c1args.toad_foil_th.getLast? = some tl ∧
      s.min_fiss = c1args.min_fiss / (c1args.src * c1args.toad_foil_r ^ 2 * (157/50) * tl) := by
  obtain ⟨tl, h1, h2⟩ := (claim_C10_ctor_divides_by_last_thickness (157/50) c1args).2 _ rfl
  exact ⟨(claim_C10_ctor_divides_by_last_thickness (157/50) c1args).1, _, tl, rfl, h1, h2⟩

end ETAUtil
